import Mathlib

/-!
Verification of the BFGS Hessian-update kernel demonstrated in
`Tutorials/13_Geometry_Optimization/13c_Hessians-updating.ipynb`.

The notebook computes, from a current Hessian approximation `H`, an
internal-coordinate displacement `dq` and a gradient displacement `dg`,
the rank-2 BFGS update

    gq      = np.dot(dq, dg)
    H_new[i,j] = H[i,j] + dg[i] * dg[j] / gq         (first pass)
    Hdq     = np.dot(H, dq)
    dqHdq   = np.dot(dq, Hdq)
    H_new[i,j] -= Hdq[i] * Hdq[j] / dqHdq            (second pass)

We embed the straight-line numeric kernel over `ℚ` with vectors as
`Fin n → ℚ` and matrices as `Fin n → Fin n → ℚ`, mirroring the two-pass
structure of the source.  The hardened entry point `update_bfgs`
(denominator floor, skip signalling, dimension checking, empty-input
policy) is not present in the source material and is modelled from the
specification; it works over length-carrying lists so that dimension
mismatches are representable.
-/

namespace BfgsUpdate

/-- Dot product of two internal-coordinate vectors; embeds `np.dot` on two
1-D arrays of equal length. -/
def dot {n : Nat} (v w : Fin n → ℚ) : ℚ := ∑ i, v i * w i

/-- Matrix-vector product; embeds `np.dot(H, dq)` for a 2-D and a 1-D
array: row `i` of the result is the dot product of row `i` of `H` with
`v`. -/
def matVec {n : Nat} (H : Fin n → Fin n → ℚ) (v : Fin n → ℚ) : Fin n → ℚ :=
  fun i => dot (H i) v

/-- The array state manipulated by the update cell of the notebook: the
current Hessian `H`, the displacement vectors `dq` and `dg`, and the
output array `H_new` (zero-initialised by `np.zeros` in the source). -/
structure BfgsState (n : Nat) where
  H : Fin n → Fin n → ℚ
  dq : Fin n → ℚ
  dg : Fin n → ℚ
  H_new : Fin n → Fin n → ℚ

/-- The update cell of the notebook as a state transformer: compute
`gq = np.dot(dq, dg)`, fill `H_new` with `H[i,j] + dg[i]*dg[j]/gq`
(first double loop), compute `Hdq = np.dot(H, dq)` and
`dqHdq = np.dot(dq, Hdq)`, then subtract `Hdq[i]*Hdq[j]/dqHdq` from
every entry of `H_new` (second double loop).  Only `H_new` is written;
`H`, `dq`, `dg` are read. -/
def bfgsStep {n : Nat} (s : BfgsState n) : BfgsState n :=
  let gq := dot s.dq s.dg
  let s1 := { s with H_new := fun i j => s.H i j + s.dg i * s.dg j / gq }
  let Hdq := matVec s1.H s1.dq
  let dqHdq := dot s1.dq Hdq
  { s1 with H_new := fun i j => s1.H_new i j - Hdq i * Hdq j / dqHdq }

/-- The matrix produced by the update cell, starting (as in the source)
from a zero-initialised `H_new`. -/
def bfgsHnew {n : Nat} (H : Fin n → Fin n → ℚ) (dq dg : Fin n → ℚ) :
    Fin n → Fin n → ℚ :=
  (bfgsStep { H := H, dq := dq, dg := dg, H_new := fun _ _ => 0 }).H_new

/-- The update with both of its divisions checked: the computation is
refused (returns `none`) exactly when one of the two denominators
`gq = dq @ dg` or `dqHdq = dq @ (H @ dq)` is zero; otherwise it produces
the matrix of the source loops.  These are the only two division sites
of the kernel. -/
def bfgsUpdateChecked {n : Nat} (H : Fin n → Fin n → ℚ) (dq dg : Fin n → ℚ) :
    Option (Fin n → Fin n → ℚ) :=
  if dot dq dg = 0 then none
  else if dot dq (matVec H dq) = 0 then none
  else some (bfgsHnew H dq dg)

/-- The gradient corresponding to an internal-coordinate force vector:
force is minus the gradient. -/
def gradFromForce {n : Nat} (f : Fin n → ℚ) : Fin n → ℚ := fun i => - f i

/-- The gradient-displacement vector as the notebook forms it from the
force vectors at the two trajectory points: `dg[:] = f_q1 - f_q2`. -/
def dgFromForces {n : Nat} (f1 f2 : Fin n → ℚ) : Fin n → ℚ :=
  fun i => f1 i - f2 i

/-- Entry `(i, j)` of a list-of-rows matrix, defaulting to `0` out of
range. -/
def entry (H : List (List ℚ)) (i j : Nat) : ℚ := (H.getD i []).getD j 0

/-- Dot product of two list vectors. -/
def ldot (v w : List ℚ) : ℚ := (List.zipWith (fun a b => a * b) v w).sum

/-- Matrix-vector product on list-of-rows matrices. -/
def lmatVec (H : List (List ℚ)) (v : List ℚ) : List ℚ :=
  H.map (fun row => ldot row v)

/-- Dimension contract of the kernel: `H` is square `N` by `N` and `dq`,
`dg` have length `N`. -/
def dimsOk (H : List (List ℚ)) (dq dg : List ℚ) : Bool :=
  H.all (fun row => row.length == H.length) &&
    (dq.length == H.length) && (dg.length == H.length)

/-- Caller errors of the hardened kernel. -/
inductive UpdateError where
  | invalidDimensions
deriving DecidableEq

/-- Outcome of the hardened kernel: either a freshly built updated
Hessian, or a skip signal carrying a reason and the (unchanged) input
Hessian the caller should keep using. -/
inductive BfgsOutcome where
  | updated (Hnew : List (List ℚ))
  | skipped (reason : String) (H : List (List ℚ))
deriving DecidableEq

/-- The updated matrix of the source loops, on list matrices:
`H[i,j] + dg[i]*dg[j]/gq - Hdq[i]*Hdq[j]/dqHdq`. -/
def buildHnew (H : List (List ℚ)) (dg Hdq : List ℚ) (gq dqHdq : ℚ) :
    List (List ℚ) :=
  (List.range H.length).map (fun i =>
    (List.range H.length).map (fun j =>
      entry H i j + dg.getD i 0 * dg.getD j 0 / gq
        - Hdq.getD i 0 * Hdq.getD j 0 / dqHdq))

/-- Modelled from the spec: the hardened kernel `update_bfgs` of section
4.1, absent from the source material (the notebook performs the update
unguarded; its prose and the specification call for the guards).  Checks
dimensions first (`InvalidDimensions` on mismatch), treats `N = 0` as a
trivial success returning the empty matrix, skips the update when either
denominator is below `minDenom` in magnitude (leaving `H` unchanged),
and otherwise returns the BFGS-updated matrix. -/
def update_bfgs (H : List (List ℚ)) (dq dg : List ℚ) (minDenom : ℚ) :
    Except UpdateError BfgsOutcome :=
  if dimsOk H dq dg = false then .error .invalidDimensions
  else if H.length = 0 then .ok (.updated [])
  else
    let gq := ldot dq dg
    if |gq| < minDenom then
      .ok (.skipped "vanishing curvature-gradient product" H)
    else
      let Hdq := lmatVec H dq
      let dqHdq := ldot dq Hdq
      if |dqHdq| < minDenom then
        .ok (.skipped "vanishing displacement-curvature product" H)
      else
        .ok (.updated (buildHnew H dg Hdq gq dqHdq))

/-- Whether a kernel result is the skip outcome. -/
def isSkipped : Except UpdateError BfgsOutcome → Bool
  | .ok (.skipped _ _) => true
  | _ => false

/-- Concrete 1 by 1 test matrix `[[2]]`. -/
def wH1 : Fin 1 → Fin 1 → ℚ := fun _ _ => 2

/-- Concrete length-1 test vector `[1]`. -/
def wv1 : Fin 1 → ℚ := fun _ => 1

/-- Concrete symmetric 2 by 2 test matrix with every entry `1`. -/
def wH2 : Fin 2 → Fin 2 → ℚ := fun _ _ => 1

/-- Concrete length-2 test vector `[1, 1]`. -/
def wv2 : Fin 2 → ℚ := fun _ => 1

/-- `dimsOk` unfolded to its three conditions. -/
theorem dimsOk_spec (H : List (List ℚ)) (dq dg : List ℚ) :
    dimsOk H dq dg = true ↔
      (∀ row ∈ H, row.length = H.length) ∧
        dq.length = H.length ∧ dg.length = H.length := by
  simp [dimsOk, List.all_eq_true]
  tauto

end BfgsUpdate

namespace BfgsUpdate

/-- C1: with both denominators nonzero, every entry of the updated matrix
is `H[i,j] + dg[i]*dg[j]/gq - Hdq[i]*Hdq[j]/dqHdq`, where `gq = dq @ dg`,
`Hdq = H @ dq` and `dqHdq = dq @ Hdq`. -/
theorem bfgs_update_formula {n : Nat} (H : Fin n → Fin n → ℚ)
    (dq dg : Fin n → ℚ) (hgq : dot dq dg ≠ 0)
    (hd : dot dq (matVec H dq) ≠ 0) (i j : Fin n) :
    bfgsHnew H dq dg i j =
      H i j + dg i * dg j / dot dq dg
        - matVec H dq i * matVec H dq j / dot dq (matVec H dq) := by
  simp [bfgsHnew, bfgsStep]

/-- Witness for C1 at `n = 1`, `H = [[2]]`, `dq = dg = [1]`. -/
theorem bfgs_update_formula_witness :
    dot wv1 wv1 ≠ 0 ∧ dot wv1 (matVec wH1 wv1) ≠ 0 ∧
    bfgsHnew wH1 wv1 wv1 0 0 =
      wH1 0 0 + wv1 0 * wv1 0 / dot wv1 wv1
        - matVec wH1 wv1 0 * matVec wH1 wv1 0 / dot wv1 (matVec wH1 wv1) := by
  refine ⟨by norm_num [dot, wv1, wH1, matVec, Fin.sum_univ_one],
    by norm_num [dot, wv1, wH1, matVec, Fin.sum_univ_one], ?_⟩
  exact bfgs_update_formula wH1 wv1 wv1
    (by norm_num [dot, wv1, wH1, matVec, Fin.sum_univ_one])
    (by norm_num [dot, wv1, wH1, matVec, Fin.sum_univ_one]) 0 0

/-- C2: if `H` is symmetric and both denominators are nonzero, the
updated matrix is symmetric. -/
theorem bfgs_update_symmetric {n : Nat} (H : Fin n → Fin n → ℚ)
    (dq dg : Fin n → ℚ) (hsymm : ∀ i j, H i j = H j i)
    (hgq : dot dq dg ≠ 0) (hd : dot dq (matVec H dq) ≠ 0) (i j : Fin n) :
    bfgsHnew H dq dg i j = bfgsHnew H dq dg j i := by
  simp only [bfgsHnew, bfgsStep]
  rw [hsymm i j]
  ring

/-- Witness for C2 at `n = 2`, the all-ones matrix and all-ones vectors. -/
theorem bfgs_update_symmetric_witness :
    (∀ i j, wH2 i j = wH2 j i) ∧ dot wv2 wv2 ≠ 0 ∧
    dot wv2 (matVec wH2 wv2) ≠ 0 ∧
    bfgsHnew wH2 wv2 wv2 0 1 = bfgsHnew wH2 wv2 wv2 1 0 := by
  refine ⟨fun i j => rfl, by norm_num [dot, wv2, wH2, matVec, Fin.sum_univ_two],
    by norm_num [dot, wv2, wH2, matVec, Fin.sum_univ_two], ?_⟩
  exact bfgs_update_symmetric wH2 wv2 wv2 (fun i j => rfl)
    (by norm_num [dot, wv2, wH2, matVec, Fin.sum_univ_two])
    (by norm_num [dot, wv2, wH2, matVec, Fin.sum_univ_two]) 0 1

/-- C8: the gradient-displacement vector the notebook forms from forces,
`dg = f_q1 - f_q2`, equals the current-minus-previous difference of the
gradients `g = -f`, so the force-based computation respects the
gradient sign convention of the contract. -/
theorem dg_sign_convention {n : Nat} (f1 f2 : Fin n → ℚ) :
    dgFromForces f1 f2 = fun i => gradFromForce f2 i - gradFromForce f1 i := by
  funext i
  simp [dgFromForces, gradFromForce]
  ring

/-- C9: the update step writes only the output array `H_new`; the input
arrays `H`, `dq`, `dg` hold their entry values after the step. -/
theorem bfgsStep_frame {n : Nat} (s : BfgsState n) :
    (bfgsStep s).H = s.H ∧ (bfgsStep s).dq = s.dq ∧ (bfgsStep s).dg = s.dg :=
  ⟨rfl, rfl, rfl⟩

/-- C10: with both denominators nonzero, the division-checked update
never takes a division-by-zero branch: it is total and returns exactly
the matrix of the unchecked source loops. -/
theorem bfgs_checked_total {n : Nat} (H : Fin n → Fin n → ℚ)
    (dq dg : Fin n → ℚ) (hgq : dot dq dg ≠ 0)
    (hd : dot dq (matVec H dq) ≠ 0) :
    bfgsUpdateChecked H dq dg = some (bfgsHnew H dq dg) := by
  simp [bfgsUpdateChecked, hgq, hd]

/-- Witness for C10 at `n = 1`, `H = [[2]]`, `dq = dg = [1]`. -/
theorem bfgs_checked_total_witness :
    dot wv1 wv1 ≠ 0 ∧ dot wv1 (matVec wH1 wv1) ≠ 0 ∧
    bfgsUpdateChecked wH1 wv1 wv1 = some (bfgsHnew wH1 wv1 wv1) := by
  refine ⟨by norm_num [dot, wv1, wH1, matVec, Fin.sum_univ_one],
    by norm_num [dot, wv1, wH1, matVec, Fin.sum_univ_one], ?_⟩
  exact bfgs_checked_total wH1 wv1 wv1
    (by norm_num [dot, wv1, wH1, matVec, Fin.sum_univ_one])
    (by norm_num [dot, wv1, wH1, matVec, Fin.sum_univ_one])

/-- Counterexample to C3 as stated: at the empty input (`N = 0`) with
floor `1/100000000`, the first denominator `dq @ dg = 0` is below the
floor, yet the kernel returns the trivial `Updated` success demanded by
the zero-coordinate policy, not the `UpdateSkipped` outcome. -/
theorem update_bfgs_skip_cex :
    |ldot ([] : List ℚ) ([] : List ℚ)| < 1 / 100000000 ∧
    isSkipped (update_bfgs [] [] [] (1 / 100000000)) = false ∧
    update_bfgs [] [] [] (1 / 100000000) = .ok (.updated []) := by
  refine ⟨by norm_num [ldot], rfl, rfl⟩

/-- C3 (amended): for well-dimensioned input with `N` at least 1, if
either denominator is below the floor in magnitude, the kernel skips
the update and hands back the input Hessian unchanged. -/
theorem update_bfgs_skip (H : List (List ℚ)) (dq dg : List ℚ) (ε : ℚ)
    (hdim : dimsOk H dq dg = true) (hn : H.length ≠ 0)
    (hden : |ldot dq dg| < ε ∨ |ldot dq (lmatVec H dq)| < ε) :
    ∃ r, update_bfgs H dq dg ε = .ok (.skipped r H) := by
  by_cases h1 : |ldot dq dg| < ε
  · exact ⟨"vanishing curvature-gradient product",
      by simp [update_bfgs, hdim, hn, h1]⟩
  · have h2 : |ldot dq (lmatVec H dq)| < ε := hden.resolve_left h1
    exact ⟨"vanishing displacement-curvature product",
      by simp [update_bfgs, hdim, hn, h1, h2]⟩

/-- Witness for the amended C3 at `H = [[1]]`, `dq = dg = [0]`,
floor `1/2`. -/
theorem update_bfgs_skip_witness :
    dimsOk [[(1 : ℚ)]] [0] [0] = true ∧ ([[(1 : ℚ)]]).length ≠ 0 ∧
    (|ldot [0] [0]| < (1 / 2 : ℚ) ∨
      |ldot [0] (lmatVec [[(1 : ℚ)]] [0])| < (1 / 2 : ℚ)) ∧
    ∃ r, update_bfgs [[(1 : ℚ)]] [0] [0] (1 / 2) =
      .ok (.skipped r [[(1 : ℚ)]]) := by
  refine ⟨rfl, by norm_num, Or.inl (by norm_num [ldot]), ?_⟩
  exact update_bfgs_skip [[(1 : ℚ)]] [0] [0] (1 / 2) rfl (by norm_num)
    (Or.inl (by norm_num [ldot]))

/-- C4: with a positive floor, every call either fails fast on bad
dimensions, reports the explicit skip outcome with the input Hessian
unchanged, or applies the update with both denominators at least the
floor in magnitude and hence nonzero (over `ℚ` every produced entry is
finite); no near-zero division happens silently. -/
theorem update_bfgs_no_silent_division (H : List (List ℚ)) (dq dg : List ℚ)
    (ε : ℚ) (hε : 0 < ε) :
    update_bfgs H dq dg ε = .error .invalidDimensions ∨
    (∃ r, update_bfgs H dq dg ε = .ok (.skipped r H)) ∨
    (∃ Hn, update_bfgs H dq dg ε = .ok (.updated Hn) ∧
      (H.length = 0 ∨
        (ε ≤ |ldot dq dg| ∧ ε ≤ |ldot dq (lmatVec H dq)| ∧
          ldot dq dg ≠ 0 ∧ ldot dq (lmatVec H dq) ≠ 0))) := by
  by_cases hd : dimsOk H dq dg = false
  · exact Or.inl (by simp [update_bfgs, hd])
  · have hdt : dimsOk H dq dg = true := by
      revert hd
      cases dimsOk H dq dg <;> simp
    by_cases hn : H.length = 0
    · exact Or.inr (Or.inr ⟨[], by simp [update_bfgs, hdt, hn], Or.inl hn⟩)
    · by_cases h1 : |ldot dq dg| < ε
      · exact Or.inr (Or.inl ⟨"vanishing curvature-gradient product",
          by simp [update_bfgs, hdt, hn, h1]⟩)
      · by_cases h2 : |ldot dq (lmatVec H dq)| < ε
        · exact Or.inr (Or.inl ⟨"vanishing displacement-curvature product",
            by simp [update_bfgs, hdt, hn, h1, h2]⟩)
        · refine Or.inr (Or.inr
            ⟨buildHnew H dg (lmatVec H dq) (ldot dq dg) (ldot dq (lmatVec H dq)),
            by simp [update_bfgs, hdt, hn, h1, h2],
            Or.inr ⟨le_of_not_lt h1, le_of_not_lt h2, ?_, ?_⟩⟩)
          · exact abs_pos.mp (lt_of_lt_of_le hε (le_of_not_lt h1))
          · exact abs_pos.mp (lt_of_lt_of_le hε (le_of_not_lt h2))

/-- Witness for C4 at the empty input with floor `1`. -/
theorem update_bfgs_no_silent_division_witness :
    (0 : ℚ) < 1 ∧
    (update_bfgs [] [] [] 1 = .error .invalidDimensions ∨
    (∃ r, update_bfgs [] [] [] 1 = .ok (.skipped r [])) ∨
    (∃ Hn, update_bfgs [] [] [] 1 = .ok (.updated Hn) ∧
      (([] : List (List ℚ)).length = 0 ∨
        ((1 : ℚ) ≤ |ldot [] []| ∧ (1 : ℚ) ≤ |ldot [] (lmatVec [] [])| ∧
          ldot [] [] ≠ 0 ∧ ldot ([] : List ℚ) (lmatVec [] []) ≠ 0)))) :=
  ⟨by norm_num, update_bfgs_no_silent_division [] [] [] 1 (by norm_num)⟩

/-- C5: a dimension mismatch (a row of `H` of the wrong length, or `dq`
or `dg` of length different from the side of `H`) makes the kernel fail
with `InvalidDimensions`; being a pure function it performs no update of
`H` in doing so. -/
theorem update_bfgs_invalid_dims (H : List (List ℚ)) (dq dg : List ℚ)
    (ε : ℚ)
    (h : dq.length ≠ H.length ∨ dg.length ≠ H.length ∨
      ∃ row ∈ H, row.length ≠ H.length) :
    update_bfgs H dq dg ε = .error .invalidDimensions := by
  have hd : dimsOk H dq dg = false := by
    rcases hdo : dimsOk H dq dg with _ | _
    · rfl
    · rcases (dimsOk_spec H dq dg).mp hdo with ⟨hrows, hq, hg⟩
      rcases h with h | h | ⟨row, hrow, hlen⟩
      · exact absurd hq h
      · exact absurd hg h
      · exact absurd (hrows row hrow) hlen
  simp [update_bfgs, hd]

/-- Witness for C5 at `H = [[1]]` (so `N = 1`) and `dq` of length 2. -/
theorem update_bfgs_invalid_dims_witness :
    (([1, 1] : List ℚ).length ≠ ([[(1 : ℚ)]]).length ∨
      (([1] : List ℚ)).length ≠ ([[(1 : ℚ)]]).length ∨
      ∃ row ∈ [[(1 : ℚ)]], row.length ≠ ([[(1 : ℚ)]]).length) ∧
    update_bfgs [[(1 : ℚ)]] [1, 1] [1] 0 = .error .invalidDimensions := by
  refine ⟨Or.inl (by norm_num), ?_⟩
  exact update_bfgs_invalid_dims [[(1 : ℚ)]] [1, 1] [1] 0
    (Or.inl (by norm_num))

/-- C6: for `N = 0` (empty Hessian and vectors) the kernel succeeds
trivially with the `Updated` outcome carrying the empty matrix, for any
floor. -/
theorem update_bfgs_empty (ε : ℚ) :
    update_bfgs [] [] [] ε = .ok (.updated []) := rfl

/-- C7: the kernel is deterministic: equal inputs (Hessian,
displacements and floor) give equal results; the output depends on
nothing else. -/
theorem update_bfgs_deterministic (H1 H2 : List (List ℚ))
    (dq1 dq2 dg1 dg2 : List ℚ) (ε1 ε2 : ℚ) (hH : H1 = H2) (hq : dq1 = dq2)
    (hg : dg1 = dg2) (hε : ε1 = ε2) :
    update_bfgs H1 dq1 dg1 ε1 = update_bfgs H2 dq2 dg2 ε2 := by
  rw [hH, hq, hg, hε]

/-- Witness for C7 at two syntactically equal concrete calls. -/
theorem update_bfgs_deterministic_witness :
    update_bfgs [[(2 : ℚ)]] [1] [1] 1 = update_bfgs [[(2 : ℚ)]] [1] [1] 1 :=
  update_bfgs_deterministic [[(2 : ℚ)]] [[(2 : ℚ)]] [1] [1] [1] [1] 1 1
    rfl rfl rfl rfl

end BfgsUpdate
